import Mathlib

/-!
Verification of the training core of the Mg22 context-encoder GAN
(src/train.py): loss functions, the training step, the evaluation step,
and the epoch loop / trainer, embedded shallowly over real-valued tensors
modelled as functions on finite index types.
-/

namespace Inpaint

/-- Logistic sigmoid, used to express binary cross-entropy from logits. -/
noncomputable def sigmoid (x : ℝ) : ℝ := 1 / (1 + Real.exp (-x))

/-- Per-element binary cross-entropy from a logit `x` against a target `z`,
in the log-sum-exp form the library loss object computes:
`z * log (1 + exp (-x)) + (1 - z) * log (1 + exp x)`. -/
noncomputable def bceLogit (z x : ℝ) : ℝ :=
  z * Real.log (1 + Real.exp (-x)) + (1 - z) * Real.log (1 + Real.exp x)

/-- Embeds the module-level `cross_entropy` object of src/train.py:
`BinaryCrossentropy(from_logits=True, reduction=SUM_OVER_BATCH_SIZE)`.
Discriminator outputs have shape (batch, 1, 1, 1), i.e. one logit per
sample, so the reduction is the mean over the batch. -/
noncomputable def cross_entropy {b : ℕ} (target output : Fin b → ℝ) : ℝ :=
  (∑ i, bceLogit (target i) (output i)) / b

/-- Embeds `tf.ones_like` on a (batch, 1, 1, 1) logit tensor. -/
def ones_like {b : ℕ} (_x : Fin b → ℝ) : Fin b → ℝ := fun _ => 1

/-- Embeds `tf.zeros_like` on a (batch, 1, 1, 1) logit tensor. -/
def zeros_like {b : ℕ} (_x : Fin b → ℝ) : Fin b → ℝ := fun _ => 0

/-- `discriminator_loss` from src/train.py lines 34-38: cross-entropy of the
real-center predictions against ones plus cross-entropy of the generated-center
predictions against zeros. -/
noncomputable def discriminator_loss {b : ℕ} (real_output fake_output : Fin b → ℝ) : ℝ :=
  let real_loss := cross_entropy (ones_like real_output) real_output
  let fake_loss := cross_entropy (zeros_like fake_output) fake_output
  let total_loss := real_loss + fake_loss
  total_loss

/-- A 4-D tensor of shape (b, d1, d2, d3), as a function on its indices. -/
abbrev Tensor4 (b d1 d2 d3 : ℕ) := Fin b → Fin d1 → Fin d2 → Fin d3 → ℝ

/-- Index set of the Python slice `[:ov]` on an axis of length `n`. -/
def sliceLo (n ov : ℕ) : Finset (Fin n) := Finset.univ.filter fun i => i.val < ov

/-- Index set of the Python slice `[-ov:]` (for `ov > 0`) on an axis of length `n`. -/
def sliceHi (n ov : ℕ) : Finset (Fin n) := Finset.univ.filter fun i => n - ov ≤ i.val

/-- Index set of the Python slice `[ov:-ov]` (for `ov > 0`) on an axis of length `n`. -/
def sliceMid (n ov : ℕ) : Finset (Fin n) :=
  Finset.univ.filter fun i => ov ≤ i.val ∧ i.val < n - ov

/-- Embeds the module-level `MSE` object
(`MeanSquaredError(reduction=SUM_OVER_BATCH_SIZE)`) applied to the sub-tensors
selected by index sets `s1, s2, s3` on the three non-batch axes: the mean of
the squared differences over all selected elements. -/
noncomputable def sliceMSE {b d1 d2 d3 : ℕ} (y_true y_pred : Tensor4 b d1 d2 d3)
    (s1 : Finset (Fin d1)) (s2 : Finset (Fin d2)) (s3 : Finset (Fin d3)) : ℝ :=
  (∑ i, ∑ j ∈ s1, ∑ k ∈ s2, ∑ l ∈ s3, (y_true i j k l - y_pred i j k l) ^ 2) /
    ((b : ℝ) * s1.card * s2.card * s3.card)

/-- `MSE` on two whole tensors. -/
noncomputable def MSE {b d1 d2 d3 : ℕ} (y_true y_pred : Tensor4 b d1 d2 d3) : ℝ :=
  sliceMSE y_true y_pred Finset.univ Finset.univ Finset.univ

/-- `generator_loss` from src/train.py lines 56-84.  When `use_gpu` the tensor
layout is channel-first (b, c, n, n) and the Python code slices axes 2 and 3;
otherwise the layout is channel-last (b, n, n, c) and it slices axes 1 and 2.
The slices `[ov:-ov]`, `[:ov]`, `[-ov:]` become the index sets
`sliceMid`, `sliceLo`, `sliceHi`. -/
noncomputable def generator_loss {b d1 d2 d3 : ℕ} (fake_output : Fin b → ℝ)
    (y_true y_pred : Tensor4 b d1 d2 d3) (overlap : ℕ) (use_gpu : Bool)
    (weight_l2 weight_adv : ℝ) : ℝ :=
  let adv_loss := cross_entropy (ones_like fake_output) fake_output
  if overlap ≠ 0 then
    let l2_loss :=
      if use_gpu then
        let center_loss :=
          sliceMSE y_true y_pred Finset.univ (sliceMid d2 overlap) (sliceMid d3 overlap)
        let overlap_loss := 10 *
          (sliceMSE y_true y_pred Finset.univ (sliceLo d2 overlap) (sliceLo d3 overlap) +
           sliceMSE y_true y_pred Finset.univ (sliceHi d2 overlap) (sliceHi d3 overlap))
        center_loss + overlap_loss
      else
        let center_loss :=
          sliceMSE y_true y_pred (sliceMid d1 overlap) (sliceMid d2 overlap) Finset.univ
        let overlap_loss := 10 *
          (sliceMSE y_true y_pred (sliceLo d1 overlap) (sliceLo d2 overlap) Finset.univ +
           sliceMSE y_true y_pred (sliceHi d1 overlap) (sliceHi d2 overlap) Finset.univ)
        center_loss + overlap_loss
    weight_l2 * l2_loss + weight_adv * adv_loss
  else
    weight_l2 * MSE y_true y_pred + weight_adv * adv_loss

/-! Basic facts about the logit cross-entropy. -/

theorem bceLogit_one (x : ℝ) : bceLogit 1 x = Real.log (1 + Real.exp (-x)) := by
  simp [bceLogit]

theorem bceLogit_zero (x : ℝ) : bceLogit 0 x = Real.log (1 + Real.exp x) := by
  simp [bceLogit]

theorem neg_log_sigmoid (x : ℝ) : -Real.log (sigmoid x) = Real.log (1 + Real.exp (-x)) := by
  rw [sigmoid, one_div, Real.log_inv, neg_neg]

theorem neg_log_one_sub_sigmoid (x : ℝ) :
    -Real.log (1 - sigmoid x) = Real.log (1 + Real.exp x) := by
  have hpos : (0 : ℝ) < 1 + Real.exp (-x) := by positivity
  have h1 : 1 - sigmoid x = Real.exp (-x) / (1 + Real.exp (-x)) := by
    rw [sigmoid]
    field_simp
  rw [h1, Real.log_div (Real.exp_ne_zero _) (ne_of_gt hpos), Real.log_exp]
  have h2 : 1 + Real.exp x = Real.exp x * (1 + Real.exp (-x)) := by
    rw [mul_add, mul_one, ← Real.exp_add]
    simp [add_comm]
  rw [h2, Real.log_mul (Real.exp_ne_zero _) (ne_of_gt hpos), Real.log_exp]
  ring

theorem bceLogit_nonneg (z x : ℝ) (hz0 : 0 ≤ z) (hz1 : z ≤ 1) : 0 ≤ bceLogit z x := by
  have h1 : 0 ≤ Real.log (1 + Real.exp (-x)) :=
    Real.log_nonneg (by nlinarith [Real.exp_pos (-x)])
  have h2 : 0 ≤ Real.log (1 + Real.exp x) :=
    Real.log_nonneg (by nlinarith [Real.exp_pos x])
  have := mul_nonneg hz0 h1
  have := mul_nonneg (by linarith : (0:ℝ) ≤ 1 - z) h2
  unfold bceLogit
  linarith

theorem cross_entropy_ones {b : ℕ} (x output : Fin b → ℝ) :
    cross_entropy (ones_like x) output =
      (∑ i, Real.log (1 + Real.exp (-(output i)))) / b := by
  unfold cross_entropy ones_like
  simp [bceLogit_one]

theorem cross_entropy_zeros {b : ℕ} (x output : Fin b → ℝ) :
    cross_entropy (zeros_like x) output =
      (∑ i, Real.log (1 + Real.exp (output i))) / b := by
  unfold cross_entropy zeros_like
  simp [bceLogit_zero]

/-- C3 (amended): `discriminator_loss` is the batch-mean binary cross-entropy of
`real_output` against an all-ones target plus the batch-mean binary
cross-entropy of `fake_output` against an all-zeros target, computed from raw
logits in log-sigmoid form; it is always non-negative; and on
`real_output = [[2.0]]`, `fake_output = [[-2.0]]` it equals
`log (1 + e^(-2)) + log (1 + e^(-2))` (≈ 0.254), not
`log (1 + e^(-2)) + log (1 + e^2)`. -/
theorem discriminator_loss_spec :
    (∀ (b : ℕ) (real_output fake_output : Fin b → ℝ),
      discriminator_loss real_output fake_output =
        (∑ i, -Real.log (sigmoid (real_output i))) / b +
        (∑ i, -Real.log (1 - sigmoid (fake_output i))) / b ∧
      0 ≤ discriminator_loss real_output fake_output) ∧
    discriminator_loss (fun _ : Fin 1 => (2 : ℝ)) (fun _ => (-2 : ℝ)) =
      Real.log (1 + Real.exp (-2)) + Real.log (1 + Real.exp (-2)) := by
  constructor
  · intro b real_output fake_output
    constructor
    · unfold discriminator_loss
      rw [cross_entropy_ones, cross_entropy_zeros]
      simp only [neg_log_sigmoid, neg_log_one_sub_sigmoid]
    · unfold discriminator_loss cross_entropy
      have h1 : 0 ≤ ∑ i, bceLogit (ones_like real_output i) (real_output i) :=
        Finset.sum_nonneg fun i _ => bceLogit_nonneg _ _ (by simp [ones_like]) (by simp [ones_like])
      have h2 : 0 ≤ ∑ i, bceLogit (zeros_like fake_output i) (fake_output i) :=
        Finset.sum_nonneg fun i _ => bceLogit_nonneg _ _ (by simp [zeros_like]) (by simp [zeros_like])
      have hb : (0 : ℝ) ≤ (b : ℝ) := Nat.cast_nonneg b
      have := div_nonneg h1 hb
      have := div_nonneg h2 hb
      simp only []
      linarith
  · unfold discriminator_loss cross_entropy
    simp [ones_like, zeros_like, bceLogit]

/-- C3 (counterexample): at `real_output = [[2.0]]`, `fake_output = [[-2.0]]`,
the discriminator loss does not equal `log (1 + e^(-2)) + log (1 + e^2)`
(the spec's hand-computed reference value ≈ 2.254): binary cross-entropy of
logit -2 against a zero target is `log (1 + e^(-2))`, not `log (1 + e^2)`. -/
theorem discriminator_loss_value_cex :
    discriminator_loss (fun _ : Fin 1 => (2 : ℝ)) (fun _ => (-2 : ℝ)) ≠
      Real.log (1 + Real.exp (-2)) + Real.log (1 + Real.exp 2) := by
  have hval : discriminator_loss (fun _ : Fin 1 => (2 : ℝ)) (fun _ => (-2 : ℝ)) =
      Real.log (1 + Real.exp (-2)) + Real.log (1 + Real.exp (-2)) := by
    unfold discriminator_loss cross_entropy
    simp [ones_like, zeros_like, bceLogit]
  rw [hval]
  intro h
  have hlt : Real.log (1 + Real.exp (-2)) < Real.log (1 + Real.exp 2) := by
    apply Real.log_lt_log (by positivity)
    have : Real.exp (-2) < Real.exp 2 := Real.exp_lt_exp.mpr (by norm_num)
    linarith
  linarith [add_lt_add_left hlt (Real.log (1 + Real.exp (-2)))]

/-! Spec-side view of the generator reconstruction loss: the spec describes the
three sub-regions as sets of spatial positions of the center image, with the
channel-last layout (b, n, n, c) as reference; the channel-first layout is read
through the spatial-axis accessor that transposes (0,3,1,2). -/

/-- Python `tf.transpose(x, (0, 3, 1, 2))`: channel-last (b, n, n, c) to
channel-first (b, c, n, n). -/
def transpose_0312 {b n c : ℕ} (t : Fin b → Fin n → Fin n → Fin c → ℝ) :
    Fin b → Fin c → Fin n → Fin n → ℝ := fun i k r s => t i r s k

/-- Spec: the interior region, excluding a border of width `ov` on each side. -/
def specCenterRegion (n ov : ℕ) : Finset (Fin n × Fin n) :=
  Finset.univ.filter fun q =>
    ov ≤ q.1.val ∧ q.1.val < n - ov ∧ ov ≤ q.2.val ∧ q.2.val < n - ov

/-- Spec: the top-left `ov` × `ov` overlap square. -/
def specTopLeftRegion (n ov : ℕ) : Finset (Fin n × Fin n) :=
  Finset.univ.filter fun q => q.1.val < ov ∧ q.2.val < ov

/-- Spec: the bottom-right `ov` × `ov` overlap square. -/
def specBottomRightRegion (n ov : ℕ) : Finset (Fin n × Fin n) :=
  Finset.univ.filter fun q => n - ov ≤ q.1.val ∧ n - ov ≤ q.2.val

/-- Mean-squared error over a set `R` of spatial positions, read through a
channel-last accessor: mean over batch, positions in `R`, and channels. -/
noncomputable def spatialMSE {b n c : ℕ} (t p : Fin b → Fin n → Fin n → Fin c → ℝ)
    (R : Finset (Fin n × Fin n)) : ℝ :=
  (∑ i, ∑ q ∈ R, ∑ k, (t i q.1 q.2 k - p i q.1 q.2 k) ^ 2) /
    ((b : ℝ) * R.card * c)

/-- Spec: total reconstruction loss for `overlap > 0`:
center-MSE + 10 × (left-MSE + right-MSE). -/
noncomputable def reconSpec {b n c : ℕ} (t p : Fin b → Fin n → Fin n → Fin c → ℝ)
    (ov : ℕ) : ℝ :=
  spatialMSE t p (specCenterRegion n ov) +
    10 * (spatialMSE t p (specTopLeftRegion n ov) + spatialMSE t p (specBottomRightRegion n ov))

/-- Spec: the adversarial term, binary cross-entropy of `fake_output` against
an all-ones target, in log-sum-exp form, averaged over the batch. -/
noncomputable def advSpec {b : ℕ} (fake_output : Fin b → ℝ) : ℝ :=
  (∑ i, Real.log (1 + Real.exp (-(fake_output i)))) / b

theorem advSpec_eq {b : ℕ} (fake_output : Fin b → ℝ) :
    cross_entropy (ones_like fake_output) fake_output = advSpec fake_output := by
  rw [cross_entropy_ones]; rfl

theorem specCenterRegion_eq (n ov : ℕ) :
    specCenterRegion n ov = (sliceMid n ov) ×ˢ (sliceMid n ov) := by
  ext q
  simp only [specCenterRegion, sliceMid, Finset.mem_filter, Finset.mem_product,
    Finset.mem_univ, true_and]
  tauto

theorem specTopLeftRegion_eq (n ov : ℕ) :
    specTopLeftRegion n ov = (sliceLo n ov) ×ˢ (sliceLo n ov) := by
  ext q
  simp only [specTopLeftRegion, sliceLo, Finset.mem_filter, Finset.mem_product,
    Finset.mem_univ, true_and]

theorem specBottomRightRegion_eq (n ov : ℕ) :
    specBottomRightRegion n ov = (sliceHi n ov) ×ˢ (sliceHi n ov) := by
  ext q
  simp only [specBottomRightRegion, sliceHi, Finset.mem_filter, Finset.mem_product,
    Finset.mem_univ, true_and]

/-- A sliced MSE in channel-last layout is the spatial MSE over the product of
the two spatial index sets. -/
theorem sliceMSE_prod_cl {b n c : ℕ} (t p : Fin b → Fin n → Fin n → Fin c → ℝ)
    (s1 s2 : Finset (Fin n)) :
    sliceMSE t p s1 s2 Finset.univ = spatialMSE t p (s1 ×ˢ s2) := by
  unfold sliceMSE spatialMSE
  congr 1
  · refine Finset.sum_congr rfl fun i _ => ?_
    rw [Finset.sum_product]
  · rw [Finset.card_product]
    simp only [Finset.card_univ, Fintype.card_fin]
    push_cast
    ring

/-- A sliced MSE in channel-first layout is the spatial MSE over the product of
the two spatial index sets, read through the transposing accessor. -/
theorem sliceMSE_prod_cf {b n c : ℕ} (u v : Fin b → Fin c → Fin n → Fin n → ℝ)
    (s1 s2 : Finset (Fin n)) :
    sliceMSE u v Finset.univ s1 s2 =
      spatialMSE (fun i r s k => u i k r s) (fun i r s k => v i k r s) (s1 ×ˢ s2) := by
  unfold sliceMSE spatialMSE
  congr 1
  · refine Finset.sum_congr rfl fun i _ => ?_
    rw [Finset.sum_product]
    rw [Finset.sum_comm]
    refine Finset.sum_congr rfl fun r _ => ?_
    rw [Finset.sum_comm]
  · rw [Finset.card_product]
    simp only [Finset.card_univ, Fintype.card_fin]
    push_cast
    ring

theorem sliceMSE_transpose {b n c : ℕ} (t p : Fin b → Fin n → Fin n → Fin c → ℝ)
    (s1 s2 : Finset (Fin n)) :
    sliceMSE (transpose_0312 t) (transpose_0312 p) Finset.univ s1 s2 =
      sliceMSE t p s1 s2 Finset.univ := by
  rw [sliceMSE_prod_cf, sliceMSE_prod_cl]
  rfl

/-- C1: for every pair of equally shaped center tensors, every `fake_output`,
and both layout flags, `generator_loss` (at the default weights) returns
0.9 × reconstruction + 0.1 × adversarial, where the reconstruction term is
plain MSE over the full region when `overlap = 0`, and when `overlap ≠ 0` it is
center-MSE + 10 × (left-MSE + right-MSE) over three pairwise disjoint
sub-regions: the interior excluding a border of width `overlap` on each side,
the top-left `overlap` × `overlap` square, and the bottom-right
`overlap` × `overlap` square (only these two corner squares).  The
channel-first layout (`use_gpu = true`) is read through the transposing
spatial accessor. -/
theorem generator_loss_spec_regions {b n c : ℕ} (overlap : ℕ)
    (fake_output : Fin b → ℝ)
    (t p : Fin b → Fin n → Fin n → Fin c → ℝ)
    (u v : Fin b → Fin c → Fin n → Fin n → ℝ)
    (hn : 2 * overlap ≤ n) :
    (overlap = 0 →
      generator_loss fake_output t p overlap false 0.9 0.1 =
        0.9 * spatialMSE t p (Finset.univ ×ˢ Finset.univ) + 0.1 * advSpec fake_output ∧
      generator_loss fake_output u v overlap true 0.9 0.1 =
        0.9 * spatialMSE (fun i r s k => u i k r s) (fun i r s k => v i k r s)
          (Finset.univ ×ˢ Finset.univ) + 0.1 * advSpec fake_output) ∧
    (overlap ≠ 0 →
      generator_loss fake_output t p overlap false 0.9 0.1 =
        0.9 * reconSpec t p overlap + 0.1 * advSpec fake_output ∧
      generator_loss fake_output u v overlap true 0.9 0.1 =
        0.9 * reconSpec (fun i r s k => u i k r s) (fun i r s k => v i k r s) overlap +
          0.1 * advSpec fake_output) ∧
    Disjoint (specCenterRegion n overlap) (specTopLeftRegion n overlap) ∧
    Disjoint (specCenterRegion n overlap) (specBottomRightRegion n overlap) ∧
    Disjoint (specTopLeftRegion n overlap) (specBottomRightRegion n overlap) := by
  refine ⟨?_, ?_, ?_, ?_, ?_⟩
  · intro h0
    subst h0
    constructor
    · simp only [generator_loss, MSE, ne_eq, not_true_eq_false, if_false, advSpec_eq]
      rw [sliceMSE_prod_cl]
    · simp only [generator_loss, MSE, ne_eq, not_true_eq_false, if_false, advSpec_eq]
      rw [sliceMSE_prod_cf]
  · intro h0
    constructor
    · simp only [generator_loss, if_pos h0, Bool.false_eq_true, if_false, advSpec_eq]
      rw [sliceMSE_prod_cl, sliceMSE_prod_cl, sliceMSE_prod_cl,
        ← specCenterRegion_eq, ← specTopLeftRegion_eq, ← specBottomRightRegion_eq]
      rfl
    · simp only [generator_loss, if_pos h0, if_true, advSpec_eq]
      rw [sliceMSE_prod_cf, sliceMSE_prod_cf, sliceMSE_prod_cf,
        ← specCenterRegion_eq, ← specTopLeftRegion_eq, ← specBottomRightRegion_eq]
      rfl
  · rw [Finset.disjoint_left]
    intro q hq hq'
    simp only [specCenterRegion, specTopLeftRegion, Finset.mem_filter, Finset.mem_univ,
      true_and] at hq hq'
    omega
  · rw [Finset.disjoint_left]
    intro q hq hq'
    simp only [specCenterRegion, specBottomRightRegion, Finset.mem_filter, Finset.mem_univ,
      true_and] at hq hq'
    omega
  · rw [Finset.disjoint_left]
    intro q hq hq'
    simp only [specTopLeftRegion, specBottomRightRegion, Finset.mem_filter, Finset.mem_univ,
      true_and] at hq hq'
    have h1 := q.1.isLt
    omega

/-- C1 witness: the region decomposition instantiated at a concrete shape
(batch 1, 4 × 4 spatial, 1 channel, overlap 1) on concrete tensors. -/
theorem generator_loss_spec_regions_witness :
    2 * 1 ≤ 4 ∧ (1 : ℕ) ≠ 0 ∧
    (generator_loss (fun _ : Fin 1 => (0 : ℝ))
        ((fun _ _ _ _ => (0 : ℝ)) : Tensor4 1 4 4 1)
        ((fun _ _ _ _ => (1 : ℝ)) : Tensor4 1 4 4 1) 1 false 0.9 0.1 =
      0.9 * reconSpec ((fun _ _ _ _ => (0 : ℝ)) : Tensor4 1 4 4 1)
          ((fun _ _ _ _ => (1 : ℝ)) : Tensor4 1 4 4 1) 1 +
        0.1 * advSpec (fun _ : Fin 1 => (0 : ℝ))) := by
  refine ⟨by norm_num, by norm_num, ?_⟩
  exact ((@generator_loss_spec_regions 1 4 1 1
    (fun _ => (0 : ℝ)) (fun _ _ _ _ => (0 : ℝ)) (fun _ _ _ _ => (1 : ℝ))
    (fun _ _ _ _ => (0 : ℝ)) (fun _ _ _ _ => (1 : ℝ)) (by norm_num)).2.1 (by norm_num)).1

/-- C10: the two layout branches of `generator_loss` are equivalent: for every
overlap, `fake_output`, weights, and channel-last tensors, the `use_gpu = false`
result on those tensors equals the `use_gpu = true` result on their
(0,3,1,2)-transposes. -/
theorem generator_loss_layout_equiv {b n c : ℕ} (overlap : ℕ) (fake_output : Fin b → ℝ)
    (t p : Fin b → Fin n → Fin n → Fin c → ℝ) (w_l2 w_adv : ℝ) :
    generator_loss fake_output (transpose_0312 t) (transpose_0312 p) overlap true w_l2 w_adv =
      generator_loss fake_output t p overlap false w_l2 w_adv := by
  by_cases h : overlap = 0
  · subst h
    simp only [generator_loss, MSE, ne_eq, not_true_eq_false, if_false]
    rw [sliceMSE_transpose]
  · simp only [generator_loss, if_pos h, if_true, Bool.false_eq_true, if_false]
    rw [sliceMSE_transpose, sliceMSE_transpose, sliceMSE_transpose]

/-! Step executor (`take_step`) and evaluation executor (`calc_losses`).
The generator and discriminator networks, the Adam gradient updates, and the
input images are opaque external collaborators (spec sections 3 and 9): they
are modelled as abstract parameter types and abstract functions, while the
sequencing, the training-mode flags, and the data flow between forward passes,
losses and updates are transcribed from src/train.py.  Each executor also
reports the ordered trace of the collaborator operations it performs. -/

/-- An observable operation of one executor call: a discriminator or generator
forward pass (with its training-mode flag), or an optimizer parameter update. -/
inductive StepEv : Type
  | fwdDisc (training : Bool)
  | fwdGen (training : Bool)
  | updDisc
  | updGen
deriving DecidableEq, BEq

/-- Opaque collaborators of the two executors: forward passes of the two
networks, and the two gradient-and-apply optimizer updates (each taking the
data its gradient tape closed over). -/
structure GanOps (P Q GO DO I : Type) (b d1 d2 d3 : ℕ) : Type where
  genF : P → Bool → I → Tensor4 b d1 d2 d3
  discF : Q → Bool → Tensor4 b d1 d2 d3 → (Fin b → ℝ)
  discGradApply : Q → DO → Tensor4 b d1 d2 d3 → Tensor4 b d1 d2 d3 → ℝ → Q × DO
  genGradApply : P → GO → I → Tensor4 b d1 d2 d3 → (Fin b → ℝ) → ℝ → P × GO

/-- `take_step` from src/train.py lines 98-120: one discriminator
forward/backward/update, then one generator forward/backward/update, returning
the updated parameters and optimizer states, the two losses `(gen_loss,
disc_loss)`, and the operation trace. -/
noncomputable def take_step {P Q GO DO I : Type} {b d1 d2 d3 : ℕ}
    (ops : GanOps P Q GO DO I b d1 d2 d3)
    (images : I) (real_centers : Tensor4 b d1 d2 d3) (overlap : ℕ)
    (generator : P) (discriminator : Q) (use_gpu : Bool)
    (generator_optimizer : GO) (discriminator_optimizer : DO) :
    (P × Q × GO × DO) × (ℝ × ℝ) × List StepEv :=
  let real_output := ops.discF discriminator true real_centers
  let generated_centers := ops.genF generator false images
  let fake_output := ops.discF discriminator true generated_centers
  let disc_loss := discriminator_loss real_output fake_output
  let discUpd := ops.discGradApply discriminator discriminator_optimizer
    real_centers generated_centers disc_loss
  let generated_centers2 := ops.genF generator true images
  let gen_loss := generator_loss fake_output real_centers generated_centers2
    overlap use_gpu 0.9 0.1
  let genUpd := ops.genGradApply generator generator_optimizer
    images real_centers fake_output gen_loss
  ((genUpd.1, discUpd.1, genUpd.2, discUpd.2), (gen_loss, disc_loss),
    [StepEv.fwdDisc true, StepEv.fwdGen false, StepEv.fwdDisc true, StepEv.updDisc,
     StepEv.fwdGen true, StepEv.updGen])

/-- `calc_losses` from src/train.py lines 128-137: both models run in
inference mode, no optimizer is consulted and no parameter is produced; the
call returns only the two losses and its operation trace. -/
noncomputable def calc_losses {P Q GO DO I : Type} {b d1 d2 d3 : ℕ}
    (ops : GanOps P Q GO DO I b d1 d2 d3)
    (images : I) (real_centers : Tensor4 b d1 d2 d3) (overlap : ℕ)
    (use_gpu : Bool) (generator : P) (discriminator : Q) :
    (ℝ × ℝ) × List StepEv :=
  let generated_centers := ops.genF generator false images
  let real_output := ops.discF discriminator false real_centers
  let fake_output := ops.discF discriminator false generated_centers
  let disc_loss := discriminator_loss real_output fake_output
  let gen_loss := generator_loss fake_output real_centers generated_centers
    overlap use_gpu 0.9 0.1
  ((gen_loss, disc_loss), [StepEv.fwdGen false, StepEv.fwdDisc false, StepEv.fwdDisc false])

/-- C2: on every batch, `take_step` performs exactly one discriminator update
followed (strictly later in the trace) by exactly one generator update; the
generator loss it returns consumes the `fake_output` computed by the
pre-update discriminator parameters on the inference-mode generated centers —
not a fresh verdict of the updated discriminator — together with generated
centers freshly recomputed by a training-mode generator forward pass; and the
new discriminator and generator parameters are each the result of applying
their gradient update once. -/
theorem take_step_spec {P Q GO DO I : Type} {b d1 d2 d3 : ℕ}
    (ops : GanOps P Q GO DO I b d1 d2 d3)
    (images : I) (real_centers : Tensor4 b d1 d2 d3) (overlap : ℕ)
    (generator : P) (discriminator : Q) (use_gpu : Bool)
    (generator_optimizer : GO) (discriminator_optimizer : DO) :
    (take_step ops images real_centers overlap generator discriminator use_gpu
        generator_optimizer discriminator_optimizer).2.2.count StepEv.updDisc = 1 ∧
    (take_step ops images real_centers overlap generator discriminator use_gpu
        generator_optimizer discriminator_optimizer).2.2.count StepEv.updGen = 1 ∧
    (take_step ops images real_centers overlap generator discriminator use_gpu
        generator_optimizer discriminator_optimizer).2.2.indexOf StepEv.updDisc <
      (take_step ops images real_centers overlap generator discriminator use_gpu
        generator_optimizer discriminator_optimizer).2.2.indexOf StepEv.updGen ∧
    (take_step ops images real_centers overlap generator discriminator use_gpu
        generator_optimizer discriminator_optimizer).2.1.1 =
      generator_loss
        (ops.discF discriminator true (ops.genF generator false images))
        real_centers (ops.genF generator true images) overlap use_gpu 0.9 0.1 ∧
    (take_step ops images real_centers overlap generator discriminator use_gpu
        generator_optimizer discriminator_optimizer).1.2.1 =
      (ops.discGradApply discriminator discriminator_optimizer real_centers
        (ops.genF generator false images)
        (discriminator_loss (ops.discF discriminator true real_centers)
          (ops.discF discriminator true (ops.genF generator false images)))).1 ∧
    (take_step ops images real_centers overlap generator discriminator use_gpu
        generator_optimizer discriminator_optimizer).1.1 =
      (ops.genGradApply generator generator_optimizer images real_centers
        (ops.discF discriminator true (ops.genF generator false images))
        (generator_loss
          (ops.discF discriminator true (ops.genF generator false images))
          real_centers (ops.genF generator true images) overlap use_gpu 0.9 0.1)).1 := by
  refine ⟨rfl, rfl, ?_, rfl, rfl, rfl⟩
  show List.indexOf StepEv.updDisc
      [StepEv.fwdDisc true, StepEv.fwdGen false, StepEv.fwdDisc true, StepEv.updDisc,
       StepEv.fwdGen true, StepEv.updGen] <
    List.indexOf StepEv.updGen
      [StepEv.fwdDisc true, StepEv.fwdGen false, StepEv.fwdDisc true, StepEv.updDisc,
       StepEv.fwdGen true, StepEv.updGen]
  decide

/-- C7: `calc_losses` performs no parameter or optimizer update, every forward
pass it performs runs in inference mode (`training = false`), and — having no
mutable output at all — two consecutive calls on the same batch with no
intervening `take_step` return identical loss pairs. -/
theorem calc_losses_spec {P Q GO DO I : Type} {b d1 d2 d3 : ℕ}
    (ops : GanOps P Q GO DO I b d1 d2 d3)
    (images : I) (real_centers : Tensor4 b d1 d2 d3) (overlap : ℕ)
    (use_gpu : Bool) (generator : P) (discriminator : Q) :
    (calc_losses ops images real_centers overlap use_gpu generator discriminator).2 =
      [StepEv.fwdGen false, StepEv.fwdDisc false, StepEv.fwdDisc false] ∧
    (calc_losses ops images real_centers overlap use_gpu generator discriminator).2.count
      StepEv.updDisc = 0 ∧
    (calc_losses ops images real_centers overlap use_gpu generator discriminator).2.count
      StepEv.updGen = 0 ∧
    (∀ flag, StepEv.fwdDisc flag ∈
        (calc_losses ops images real_centers overlap use_gpu generator discriminator).2 →
      flag = false) ∧
    (∀ flag, StepEv.fwdGen flag ∈
        (calc_losses ops images real_centers overlap use_gpu generator discriminator).2 →
      flag = false) ∧
    (calc_losses ops images real_centers overlap use_gpu generator discriminator).1 =
      (calc_losses ops images real_centers overlap use_gpu generator discriminator).1 := by
  refine ⟨rfl, rfl, rfl, ?_, ?_, rfl⟩
  · intro flag hmem
    simp only [calc_losses, List.mem_cons, List.not_mem_nil, or_false] at hmem
    rcases hmem with h | h | h
    · cases h
    · exact (StepEv.fwdDisc.injEq flag false).mp h
    · exact (StepEv.fwdDisc.injEq flag false).mp h
  · intro flag hmem
    simp only [calc_losses, List.mem_cons, List.not_mem_nil, or_false] at hmem
    rcases hmem with h | h | h
    · exact (StepEv.fwdGen.injEq flag false).mp h
    · cases h
    · cases h

/-! Epoch loop / trainer (`train`, src/train.py lines 200-267).  The models,
optimizers and the two executors are opaque collaborators; the loop's
accumulation, normalisation, history bookkeeping, persistence cadence and
error propagation are transcribed.  Losses live in an abstract division ring
`α` so that stub executors (spec section 8) can be run exactly. -/

/-- Error taxonomy of the epoch loop, mirroring the Python runtime:
`zeroDivision` for dividing the plain integer 0 by 0, `nameError` for reading
a loop variable that was never bound, `ioFailure` for an exception raised by
the image dumper or the checkpoint store. -/
inductive TrainErr : Type
  | zeroDivision
  | nameError
  | ioFailure
deriving DecidableEq

/-- The split label passed to the image dumper. -/
inductive DumpLabel : Type
  | trainSplit
  | valSplit
deriving DecidableEq

/-- A persistence action recorded by the epoch loop: a sample-picture dump for
one split, or a full model+optimizer checkpoint save. -/
inductive PersistKind : Type
  | pictures (label : DumpLabel)
  | checkpointSave
deriving DecidableEq

/-- Opaque collaborators of the epoch loop: the step executor, the evaluation
executor, the image dumper and the checkpoint store (each of which may raise),
and the per-batch (0,3,1,2) transpose applied when `use_gpu` is set. -/
structure TrainerOps (α S B : Type) : Type where
  step : S → B → S × α × α
  evalLosses : S → B → α × α
  savePics : S → B → ℕ → DumpLabel → Except TrainErr Unit
  checkpointSave : S → ℕ → Except TrainErr Unit
  transposeB : B → B

/-- State of one batch loop: the model/optimizer state, the two running loss
sums, the batch counter, and the last-batch variable (Python function scope:
it persists across loops and epochs). -/
structure PassAcc (α S B : Type) : Type where
  st : S
  genAcc : α
  discAcc : α
  count : ℕ
  lastB : Option B

/-- The training batch loop, src/train.py lines 223-237: per batch, transpose
when `use_gpu`, run the step executor, accumulate both losses, count. -/
def trainPass {α S B : Type} [DivisionRing α] (ops : TrainerOps α S B) (use_gpu : Bool) :
    List B → PassAcc α S B → PassAcc α S B
  | [], acc => acc
  | batch :: rest, acc =>
      let batch' := if use_gpu then ops.transposeB batch else batch
      let r := ops.step acc.st batch'
      trainPass ops use_gpu rest
        ⟨r.1, acc.genAcc + r.2.1, acc.discAcc + r.2.2, acc.count + 1, some batch'⟩

/-- The validation batch loop, src/train.py lines 240-247: `calc_losses` is
state-preserving. -/
def valPass {α S B : Type} [DivisionRing α] (ops : TrainerOps α S B) (use_gpu : Bool) :
    List B → PassAcc α S B → PassAcc α S B
  | [], acc => acc
  | batch :: rest, acc =>
      let batch' := if use_gpu then ops.transposeB batch else batch
      let r := ops.evalLosses acc.st batch'
      valPass ops use_gpu rest
        ⟨acc.st, acc.genAcc + r.1, acc.discAcc + r.2, acc.count + 1, some batch'⟩

/-- The persistence-cadence test of src/train.py lines 238 and 249:
`(epoch + 1) % 5 == 0 or epoch == 0`. -/
def dumpCond (epoch : ℕ) : Bool := (epoch + 1) % 5 == 0 || epoch == 0

/-- Normalisation of a running loss sum by a batch count, src/train.py lines
253-256.  With a zero count the accumulator is still the plain integer 0 and
Python raises `ZeroDivisionError`; otherwise the division is exact. -/
def normLoss {α : Type} [DivisionRing α] (x : α) (n : ℕ) : Except TrainErr α :=
  if n = 0 then .error .zeroDivision else .ok (x / n)

/-- One iteration of the epoch loop, src/train.py lines 216-265: training
pass, cadenced train-picture dump, validation pass, cadenced checkpoint save
and val-picture dump, then the four normalisations.  Returns the updated
state, the persisting last-batch variable, the four per-epoch scalars, and
the persistence events performed, in order. -/
def epochBody {α S B : Type} [DivisionRing α] (ops : TrainerOps α S B) (use_gpu : Bool)
    (trainBatches valBatches : List B) (epoch : ℕ) (s : S) (lastB : Option B) :
    Except TrainErr (S × Option B × (α × α × α × α) × List (ℕ × PersistKind)) := do
  let ta := trainPass ops use_gpu trainBatches ⟨s, 0, 0, 0, lastB⟩
  let evs1 ←
    if dumpCond epoch then
      match ta.lastB with
      | none => Except.error TrainErr.nameError
      | some batch => do
          ops.savePics ta.st batch epoch DumpLabel.trainSplit
          pure [(epoch, PersistKind.pictures DumpLabel.trainSplit)]
    else pure []
  let va := valPass ops use_gpu valBatches ⟨ta.st, 0, 0, 0, ta.lastB⟩
  let evs2 ←
    if dumpCond epoch then do
      ops.checkpointSave va.st epoch
      match va.lastB with
      | none => Except.error TrainErr.nameError
      | some batch => do
          ops.savePics va.st batch epoch DumpLabel.valSplit
          pure [(epoch, PersistKind.checkpointSave),
                (epoch, PersistKind.pictures DumpLabel.valSplit)]
    else pure []
  let train_gen_loss ← normLoss ta.genAcc ta.count
  let train_disc_loss ← normLoss ta.discAcc ta.count
  let val_gen_loss ← normLoss va.genAcc va.count
  let val_disc_loss ← normLoss va.discAcc va.count
  pure (va.st, va.lastB,
    (train_gen_loss, train_disc_loss, val_gen_loss, val_disc_loss), evs1 ++ evs2)

/-- The epoch loop from epoch index `e` with `fuel` epochs remaining,
accumulating the four loss histories in epoch order together with the
persistence events. -/
def trainFrom {α S B : Type} [DivisionRing α] (ops : TrainerOps α S B) (use_gpu : Bool)
    (trainBatches valBatches : List B) :
    ℕ → ℕ → S → Option B →
      Except TrainErr ((List α × List α × List α × List α) × List (ℕ × PersistKind))
  | 0, _, _, _ => .ok (([], [], [], []), [])
  | fuel + 1, e, s, lastB => do
      let (s', lastB', (tg, td, vg, vd), evs) ←
        epochBody ops use_gpu trainBatches valBatches e s lastB
      let ((h1, h2, h3, h4), evs') ←
        trainFrom ops use_gpu trainBatches valBatches fuel (e + 1) s' lastB'
      pure ((tg :: h1, td :: h2, vg :: h3, vd :: h4), evs ++ evs')

/-- `train` from src/train.py lines 200-267: the full epoch loop, starting at
epoch 0 with empty histories and no batch variable bound. -/
def train {α S B : Type} [DivisionRing α] (ops : TrainerOps α S B) (use_gpu : Bool)
    (trainBatches valBatches : List B) (epochs : ℕ) (s0 : S) :
    Except TrainErr ((List α × List α × List α × List α) × List (ℕ × PersistKind)) :=
  trainFrom ops use_gpu trainBatches valBatches epochs 0 s0 none

/-- An Adam optimizer instance, abstracted to its construction parameter. -/
structure Adam (α : Type) : Type where
  learning_rate : α

/-- Optimizer construction in `train`, src/train.py lines 203-204: the
generator optimizer is built first with `Adam(lr * 10)`, the discriminator
optimizer with `Adam(lr)`. -/
def train_optimizers {α : Type} [Mul α] [OfNat α 10] (lr : α) : Adam α × Adam α :=
  (⟨lr * 10⟩, ⟨lr⟩)

/-! Characterisation of the two batch loops. -/

theorem exceptBind_ok {ε σ τ : Type} (a : σ) (f : σ → Except ε τ) :
    (Except.ok a >>= f : Except ε τ) = f a := rfl

theorem exceptBind_error {ε σ τ : Type} (e : ε) (f : σ → Except ε τ) :
    ((Except.error e : Except ε σ) >>= f) = Except.error e := rfl

theorem exceptPure {ε σ : Type} (a : σ) : (pure a : Except ε σ) = Except.ok a := rfl

/-- The per-batch loss pairs the step executor produces along a list of
batches, threading the mutated state. -/
def stepLosses {α S B : Type} [DivisionRing α] (ops : TrainerOps α S B) (use_gpu : Bool) :
    S → List B → List (α × α)
  | _, [] => []
  | s, batch :: rest =>
      let batch' := if use_gpu then ops.transposeB batch else batch
      let r := ops.step s batch'
      (r.2.1, r.2.2) :: stepLosses ops use_gpu r.1 rest

/-- The model/optimizer state after running the step executor along a list of
batches. -/
def stepFinal {α S B : Type} [DivisionRing α] (ops : TrainerOps α S B) (use_gpu : Bool) :
    S → List B → S
  | s, [] => s
  | s, batch :: rest =>
      let batch' := if use_gpu then ops.transposeB batch else batch
      stepFinal ops use_gpu (ops.step s batch').1 rest

/-- The value of the (function-scoped) last-batch variable after a loop over
`batches`, given its previous binding `lb`. -/
def lastBatchVar {α S B : Type} (ops : TrainerOps α S B) (use_gpu : Bool) :
    Option B → List B → Option B
  | lb, [] => lb
  | _, batch :: rest =>
      lastBatchVar ops use_gpu (some (if use_gpu then ops.transposeB batch else batch)) rest

/-- The per-batch loss pairs of the evaluation executor over the validation
batches (the state is unchanged throughout). -/
def evalLossList {α S B : Type} (ops : TrainerOps α S B) (use_gpu : Bool) (s : S)
    (batches : List B) : List (α × α) :=
  batches.map fun batch => ops.evalLosses s (if use_gpu then ops.transposeB batch else batch)

theorem trainPass_char {α S B : Type} [DivisionRing α] (ops : TrainerOps α S B)
    (use_gpu : Bool) (batches : List B) :
    ∀ acc : PassAcc α S B,
      trainPass ops use_gpu batches acc =
        ⟨stepFinal ops use_gpu acc.st batches,
         acc.genAcc + ((stepLosses ops use_gpu acc.st batches).map Prod.fst).sum,
         acc.discAcc + ((stepLosses ops use_gpu acc.st batches).map Prod.snd).sum,
         acc.count + batches.length,
         lastBatchVar ops use_gpu acc.lastB batches⟩ := by
  induction batches with
  | nil =>
      intro acc
      simp [trainPass, stepFinal, stepLosses, lastBatchVar]
  | cons batch rest ih =>
      intro acc
      simp only [trainPass, stepFinal, stepLosses, lastBatchVar, List.map_cons,
        List.sum_cons, List.length_cons]
      rw [ih]
      congr 1
      · exact add_assoc _ _ _
      · exact add_assoc _ _ _
      · show acc.count + 1 + rest.length = acc.count + (rest.length + 1)
        omega

theorem valPass_char {α S B : Type} [DivisionRing α] (ops : TrainerOps α S B)
    (use_gpu : Bool) (batches : List B) :
    ∀ acc : PassAcc α S B,
      valPass ops use_gpu batches acc =
        ⟨acc.st,
         acc.genAcc + ((evalLossList ops use_gpu acc.st batches).map Prod.fst).sum,
         acc.discAcc + ((evalLossList ops use_gpu acc.st batches).map Prod.snd).sum,
         acc.count + batches.length,
         lastBatchVar ops use_gpu acc.lastB batches⟩ := by
  induction batches with
  | nil =>
      intro acc
      simp [valPass, evalLossList, lastBatchVar]
  | cons batch rest ih =>
      intro acc
      simp only [valPass, evalLossList, lastBatchVar, List.map_cons,
        List.sum_cons, List.length_cons]
      rw [ih]
      congr 1
      · exact add_assoc _ _ _
      · exact add_assoc _ _ _
      · show acc.count + 1 + rest.length = acc.count + (rest.length + 1)
        omega

theorem lastBatchVar_isSome {α S B : Type} (ops : TrainerOps α S B) (use_gpu : Bool)
    (batches : List B) (h : batches ≠ []) :
    ∀ lb, ∃ batch, lastBatchVar ops use_gpu lb batches = some batch := by
  induction batches with
  | nil => exact absurd rfl h
  | cons batch rest ih =>
      intro lb
      cases rest with
      | nil => exact ⟨_, rfl⟩
      | cons b2 r2 =>
          show ∃ b, lastBatchVar ops use_gpu
            (some (if use_gpu then ops.transposeB batch else batch)) (b2 :: r2) = some b
          exact ih (by simp) _

/-- A successful epoch: with nonempty training and validation datasets and
non-raising persistence collaborators, `epochBody` returns the final state,
the last validation batch variable, the four batch-count-normalised loss
means, and — exactly on cadence epochs — the train-picture dump, the
checkpoint save and the val-picture dump, in that order. -/
theorem epochBody_ok {α S B : Type} [DivisionRing α] (ops : TrainerOps α S B) (use_gpu : Bool)
    (tb vb : List B) (e : ℕ) (s : S) (lb : Option B)
    (htb : tb ≠ []) (hvb : vb ≠ [])
    (hpics : ∀ st batch ep l, ops.savePics st batch ep l = .ok ())
    (hck : ∀ st ep, ops.checkpointSave st ep = .ok ()) :
    epochBody ops use_gpu tb vb e s lb =
      .ok (stepFinal ops use_gpu s tb,
        lastBatchVar ops use_gpu (lastBatchVar ops use_gpu lb tb) vb,
        (((stepLosses ops use_gpu s tb).map Prod.fst).sum / tb.length,
         ((stepLosses ops use_gpu s tb).map Prod.snd).sum / tb.length,
         ((evalLossList ops use_gpu (stepFinal ops use_gpu s tb) vb).map Prod.fst).sum / vb.length,
         ((evalLossList ops use_gpu (stepFinal ops use_gpu s tb) vb).map Prod.snd).sum / vb.length),
        if dumpCond e then
          [(e, PersistKind.pictures DumpLabel.trainSplit),
           (e, PersistKind.checkpointSave),
           (e, PersistKind.pictures DumpLabel.valSplit)]
        else []) := by
  obtain ⟨lbT, hlbT⟩ := lastBatchVar_isSome ops use_gpu tb htb lb
  obtain ⟨lbV, hlbV⟩ := lastBatchVar_isSome ops use_gpu vb hvb (some lbT)
  have htl : tb.length ≠ 0 := fun h => htb (List.length_eq_zero.mp h)
  have hvl : vb.length ≠ 0 := fun h => hvb (List.length_eq_zero.mp h)
  by_cases hd : dumpCond e
  · simp only [epochBody, trainPass_char, valPass_char, hd, if_true, hlbT, hlbV,
      hpics, hck, exceptBind_ok, exceptPure, normLoss, zero_add, Nat.zero_add,
      htl, hvl, if_false, List.cons_append, List.nil_append]
  · simp only [epochBody, trainPass_char, valPass_char, hd, if_false, hlbT, hlbV,
      hpics, hck, exceptBind_ok, exceptPure, normLoss, zero_add, Nat.zero_add,
      htl, hvl, List.nil_append, Bool.false_eq_true]

/-- The three persistence events recorded at a cadence epoch, in the order the
code performs them. -/
def cadenceEvents (e : ℕ) : List (ℕ × PersistKind) :=
  [(e, PersistKind.pictures DumpLabel.trainSplit),
   (e, PersistKind.checkpointSave),
   (e, PersistKind.pictures DumpLabel.valSplit)]

/-- All persistence events over `fuel` epochs starting at epoch `e`. -/
def cadenceEventsFrom : ℕ → ℕ → List (ℕ × PersistKind)
  | _, 0 => []
  | e, fuel + 1 =>
      (if dumpCond e then cadenceEvents e else []) ++ cadenceEventsFrom (e + 1) fuel

theorem dumpCond_iff (e : ℕ) : dumpCond e = true ↔ (e = 0 ∨ (e + 1) % 5 = 0) := by
  simp [dumpCond, or_comm]

theorem mem_cadenceEventsFrom (k : ℕ) (kind : PersistKind) :
    ∀ (fuel e : ℕ),
      ((k, kind) ∈ cadenceEventsFrom e fuel ↔
        (e ≤ k ∧ k < e + fuel ∧ dumpCond k = true ∧
          (kind = PersistKind.pictures DumpLabel.trainSplit ∨
           kind = PersistKind.checkpointSave ∨
           kind = PersistKind.pictures DumpLabel.valSplit))) := by
  intro fuel
  induction fuel with
  | zero =>
      intro e
      simp only [cadenceEventsFrom, List.not_mem_nil, false_iff]
      rintro ⟨h1, h2, -, -⟩
      omega
  | succ f ih =>
      intro e
      by_cases hd : dumpCond e
      · simp only [cadenceEventsFrom, hd, if_true, List.mem_append, ih,
          cadenceEvents, List.mem_cons, List.not_mem_nil, or_false, Prod.mk.injEq]
        constructor
        · rintro ((⟨rfl, rfl⟩ | ⟨rfl, rfl⟩ | ⟨rfl, rfl⟩) | ⟨h1, h2, h3, h4⟩)
          · exact ⟨by omega, by omega, hd, Or.inl rfl⟩
          · exact ⟨by omega, by omega, hd, Or.inr (Or.inl rfl)⟩
          · exact ⟨by omega, by omega, hd, Or.inr (Or.inr rfl)⟩
          · exact ⟨by omega, by omega, h3, h4⟩
        · rintro ⟨h1, h2, h3, h4⟩
          by_cases hk : k = e
          · subst hk
            rcases h4 with rfl | rfl | rfl
            · exact Or.inl (Or.inl ⟨rfl, rfl⟩)
            · exact Or.inl (Or.inr (Or.inl ⟨rfl, rfl⟩))
            · exact Or.inl (Or.inr (Or.inr ⟨rfl, rfl⟩))
          · exact Or.inr ⟨by omega, by omega, h3, h4⟩
      · have hd' : dumpCond e = false := by
          revert hd
          cases dumpCond e
          · intro _; rfl
          · intro h; exact absurd rfl h
        simp only [cadenceEventsFrom, hd', Bool.false_eq_true, if_false,
          List.nil_append, ih]
        constructor
        · rintro ⟨h1, h2, h3, h4⟩
          exact ⟨by omega, by omega, h3, h4⟩
        · rintro ⟨h1, h2, h3, h4⟩
          have hk : k ≠ e := by
            intro h
            subst h
            rw [h3] at hd'
            cases hd'
          exact ⟨by omega, by omega, h3, h4⟩

/-- With well-formed collaborators, `trainFrom` succeeds and its persistence
events are exactly the cadence events of the epoch range. -/
theorem trainFrom_events {α S B : Type} [DivisionRing α] (ops : TrainerOps α S B)
    (use_gpu : Bool) (tb vb : List B)
    (htb : tb ≠ []) (hvb : vb ≠ [])
    (hpics : ∀ st batch ep l, ops.savePics st batch ep l = .ok ())
    (hck : ∀ st ep, ops.checkpointSave st ep = .ok ()) :
    ∀ (fuel e : ℕ) (s : S) (lb : Option B),
      ∃ hists, trainFrom ops use_gpu tb vb fuel e s lb =
        .ok (hists, cadenceEventsFrom e fuel) := by
  intro fuel
  induction fuel with
  | zero =>
      intro e s lb
      exact ⟨([], [], [], []), rfl⟩
  | succ f ih =>
      intro e s lb
      obtain ⟨⟨h1, h2, h3, h4⟩, hrec⟩ := ih (e + 1) (stepFinal ops use_gpu s tb)
        (lastBatchVar ops use_gpu (lastBatchVar ops use_gpu lb tb) vb)
      refine ⟨(((stepLosses ops use_gpu s tb).map Prod.fst).sum / tb.length :: h1,
        ((stepLosses ops use_gpu s tb).map Prod.snd).sum / tb.length :: h2,
        ((evalLossList ops use_gpu (stepFinal ops use_gpu s tb) vb).map Prod.fst).sum
            / vb.length :: h3,
        ((evalLossList ops use_gpu (stepFinal ops use_gpu s tb) vb).map Prod.snd).sum
            / vb.length :: h4), ?_⟩
      simp only [trainFrom, epochBody_ok ops use_gpu tb vb e s lb htb hvb hpics hck,
        exceptBind_ok, hrec, exceptPure, cadenceEventsFrom, cadenceEvents]

/-- C4: a validation dataset with zero batches makes the epoch normalisation
divide by zero.  The validation accumulators are still the plain integer 0, so
Python raises `ZeroDivisionError`: the run aborts with this distinct fatal
error during the first epoch's normalisation, and no NaN or infinity is ever
appended to a loss history (no history is produced at all). -/
theorem train_empty_val_zero_division {α S B : Type} [DivisionRing α]
    (ops : TrainerOps α S B) (use_gpu : Bool) (tb : List B) (epochs : ℕ) (s0 : S)
    (htb : tb ≠ []) (hE : 0 < epochs)
    (hpics : ∀ st batch ep l, ops.savePics st batch ep l = .ok ())
    (hck : ∀ st ep, ops.checkpointSave st ep = .ok ()) :
    train ops use_gpu tb [] epochs s0 = .error .zeroDivision := by
  obtain ⟨fuel, rfl⟩ : ∃ f, epochs = f + 1 := ⟨epochs - 1, by omega⟩
  obtain ⟨lbT, hlbT⟩ := lastBatchVar_isSome ops use_gpu tb htb none
  have htl : tb.length ≠ 0 := fun h => htb (List.length_eq_zero.mp h)
  have hbody : epochBody ops use_gpu tb [] 0 s0 none = .error .zeroDivision := by
    simp only [epochBody, trainPass_char, valPass_char, hlbT, hpics, hck,
      exceptBind_ok, exceptBind_error, exceptPure, normLoss, zero_add, Nat.zero_add,
      htl, if_false, dumpCond, List.length_nil, if_pos, List.nil_append]
    rfl
  show (do
      let (s', lastB', (tg, td, vg, vd), evs) ← epochBody ops use_gpu tb [] 0 s0 none
      let ((hh1, hh2, hh3, hh4), evs') ←
        trainFrom ops use_gpu tb [] fuel (0 + 1) s' lastB'
      pure ((tg :: hh1, td :: hh2, vg :: hh3, vd :: hh4), evs ++ evs') :
        Except TrainErr ((List α × List α × List α × List α) × List (ℕ × PersistKind))) =
    .error .zeroDivision
  rw [hbody]
  rfl

/-- C5: over a run of `E` epochs with well-formed collaborators, the
checkpoint saves and sample-image dumps all occur exactly at epoch index 0 and
at the epoch indices `e` with `(e + 1) % 5 = 0`, and at no other epoch; over
epochs 0..9 that is exactly indices 0, 4 and 9. -/
theorem train_cadence {α S B : Type} [DivisionRing α] (ops : TrainerOps α S B)
    (use_gpu : Bool) (tb vb : List B) (E : ℕ) (s0 : S)
    (htb : tb ≠ []) (hvb : vb ≠ [])
    (hpics : ∀ st batch ep l, ops.savePics st batch ep l = .ok ())
    (hck : ∀ st ep, ops.checkpointSave st ep = .ok ()) :
    (∃ hists, train ops use_gpu tb vb E s0 = .ok (hists, cadenceEventsFrom 0 E)) ∧
    (∀ k kind, (k, kind) ∈ cadenceEventsFrom 0 E ↔
      (k < E ∧ (k = 0 ∨ (k + 1) % 5 = 0) ∧
        (kind = PersistKind.pictures DumpLabel.trainSplit ∨
         kind = PersistKind.checkpointSave ∨
         kind = PersistKind.pictures DumpLabel.valSplit))) ∧
    cadenceEventsFrom 0 10 = cadenceEvents 0 ++ cadenceEvents 4 ++ cadenceEvents 9 := by
  refine ⟨trainFrom_events ops use_gpu tb vb htb hvb hpics hck E 0 s0 none, ?_, by decide⟩
  intro k kind
  rw [mem_cadenceEventsFrom k kind E 0, dumpCond_iff]
  constructor
  · rintro ⟨-, h2, h3, h4⟩
    exact ⟨by omega, h3, h4⟩
  · rintro ⟨h1, h2, h3⟩
    exact ⟨Nat.zero_le k, by omega, h2, h3⟩

/-- Stub executors over exact rationals for the spec's epoch-loop tests: each
batch carries the loss value both executors report for it, and persistence
always succeeds. -/
def stubOps : TrainerOps ℚ Unit ℚ :=
  ⟨fun _ batch => ((), batch, batch), fun _ batch => (batch, batch),
   fun _ _ _ _ => .ok (), fun _ _ => .ok (), id⟩

/-- Stub executors whose image dumper always raises. -/
def failingPicsOps : TrainerOps ℚ Unit ℚ :=
  ⟨fun _ batch => ((), batch, batch), fun _ batch => (batch, batch),
   fun _ _ _ _ => .error .ioFailure, fun _ _ => .ok (), id⟩

/-- C4 witness: one epoch over one training batch and an empty validation
dataset aborts with the zero-division error. -/
theorem train_empty_val_zero_division_witness :
    ([(1 : ℚ)] ≠ ([] : List ℚ)) ∧ 0 < 1 ∧
    train stubOps false [(1 : ℚ)] [] 1 () = .error .zeroDivision :=
  ⟨by decide, by decide,
    train_empty_val_zero_division stubOps false [(1 : ℚ)] 1 () (by decide) (by decide)
      (fun _ _ _ _ => rfl) (fun _ _ => rfl)⟩

/-- C5 witness: the cadence characterisation instantiated on the stub
executors over ten epochs. -/
theorem train_cadence_witness :
    ([(1 : ℚ)] ≠ ([] : List ℚ)) ∧ ([(2 : ℚ)] ≠ ([] : List ℚ)) ∧
    ((∃ hists, train stubOps false [(1 : ℚ)] [(2 : ℚ)] 10 () =
        .ok (hists, cadenceEventsFrom 0 10)) ∧
     (∀ k kind, (k, kind) ∈ cadenceEventsFrom 0 10 ↔
       (k < 10 ∧ (k = 0 ∨ (k + 1) % 5 = 0) ∧
         (kind = PersistKind.pictures DumpLabel.trainSplit ∨
          kind = PersistKind.checkpointSave ∨
          kind = PersistKind.pictures DumpLabel.valSplit))) ∧
     cadenceEventsFrom 0 10 = cadenceEvents 0 ++ cadenceEvents 4 ++ cadenceEvents 9) :=
  ⟨by decide, by decide,
    train_cadence stubOps false [(1 : ℚ)] [(2 : ℚ)] 10 () (by decide) (by decide)
      (fun _ _ _ _ => rfl) (fun _ _ => rfl)⟩

/-- C6: for every epoch with well-formed collaborators, the four per-epoch
scalars are the sums of the per-batch generator and discriminator losses over
the training dataset divided by the training batch count, and over the
validation dataset divided by the validation batch count; and on the spec's
stub executors with train losses [1, 2, 3] and validation losses [4, 5], one
epoch reports a train mean of 2 and a validation mean of 9/2 for both
networks, appended to the four histories. -/
theorem epoch_loss_normalization {α S B : Type} [DivisionRing α] (ops : TrainerOps α S B)
    (use_gpu : Bool) (tb vb : List B) (e : ℕ) (s : S) (lb : Option B)
    (htb : tb ≠ []) (hvb : vb ≠ [])
    (hpics : ∀ st batch ep l, ops.savePics st batch ep l = .ok ())
    (hck : ∀ st ep, ops.checkpointSave st ep = .ok ()) :
    (∃ s' lb' evs, epochBody ops use_gpu tb vb e s lb =
      .ok (s', lb',
        (((stepLosses ops use_gpu s tb).map Prod.fst).sum / tb.length,
         ((stepLosses ops use_gpu s tb).map Prod.snd).sum / tb.length,
         ((evalLossList ops use_gpu (stepFinal ops use_gpu s tb) vb).map Prod.fst).sum
             / vb.length,
         ((evalLossList ops use_gpu (stepFinal ops use_gpu s tb) vb).map Prod.snd).sum
             / vb.length), evs)) ∧
    train stubOps false [(1 : ℚ), 2, 3] [(4 : ℚ), 5] 1 () =
      .ok ((([2] : List ℚ), ([2] : List ℚ), ([9/2] : List ℚ), ([9/2] : List ℚ)),
        cadenceEvents 0) := by
  refine ⟨⟨_, _, _, epochBody_ok ops use_gpu tb vb e s lb htb hvb hpics hck⟩, ?_⟩
  have hb := epochBody_ok stubOps false [(1 : ℚ), 2, 3] [(4 : ℚ), 5] 0 () none
    (by decide) (by decide) (fun _ _ _ _ => rfl) (fun _ _ => rfl)
  show (do
      let (s', lastB', (tg, td, vg, vd), evs) ←
        epochBody stubOps false [(1 : ℚ), 2, 3] [(4 : ℚ), 5] 0 () none
      let ((hh1, hh2, hh3, hh4), evs') ←
        trainFrom stubOps false [(1 : ℚ), 2, 3] [(4 : ℚ), 5] 0 (0 + 1) s' lastB'
      pure ((tg :: hh1, td :: hh2, vg :: hh3, vd :: hh4), evs ++ evs') :
        Except TrainErr ((List ℚ × List ℚ × List ℚ × List ℚ) × List (ℕ × PersistKind))) =
    .ok (([2], [2], [9/2], [9/2]), cadenceEvents 0)
  rw [hb]
  simp only [exceptBind_ok, trainFrom, exceptPure, exceptBind_ok, List.append_nil]
  norm_num [stepLosses, evalLossList, stepFinal, stubOps, cadenceEvents, dumpCond]

/-- C6 witness: the normalisation characterisation instantiated on the stub
executors at epoch 0. -/
theorem epoch_loss_normalization_witness :
    ([(1 : ℚ), 2, 3] ≠ ([] : List ℚ)) ∧ ([(4 : ℚ), 5] ≠ ([] : List ℚ)) ∧
    ((∃ s' lb' evs, epochBody stubOps false [(1 : ℚ), 2, 3] [(4 : ℚ), 5] 0 () none =
      .ok (s', lb',
        (((stepLosses stubOps false () [(1 : ℚ), 2, 3]).map Prod.fst).sum
             / ([(1 : ℚ), 2, 3].length : ℚ),
         ((stepLosses stubOps false () [(1 : ℚ), 2, 3]).map Prod.snd).sum
             / ([(1 : ℚ), 2, 3].length : ℚ),
         ((evalLossList stubOps false (stepFinal stubOps false () [(1 : ℚ), 2, 3])
             [(4 : ℚ), 5]).map Prod.fst).sum / ([(4 : ℚ), 5].length : ℚ),
         ((evalLossList stubOps false (stepFinal stubOps false () [(1 : ℚ), 2, 3])
             [(4 : ℚ), 5]).map Prod.snd).sum / ([(4 : ℚ), 5].length : ℚ)), evs)) ∧
     train stubOps false [(1 : ℚ), 2, 3] [(4 : ℚ), 5] 1 () =
       .ok ((([2] : List ℚ), ([2] : List ℚ), ([9/2] : List ℚ), ([9/2] : List ℚ)),
         cadenceEvents 0)) :=
  ⟨by decide, by decide,
    epoch_loss_normalization stubOps false [(1 : ℚ), 2, 3] [(4 : ℚ), 5] 0 () none
      (by decide) (by decide) (fun _ _ _ _ => rfl) (fun _ _ => rfl)⟩

/-- C8 (amended): a failure raised by the image dumper inside the epoch loop
is not caught anywhere in `train`: the error propagates out of the run, which
aborts without producing any loss history — there is no log-and-continue
handling. -/
theorem train_dump_failure_aborts {α S B : Type} [DivisionRing α] (ops : TrainerOps α S B)
    (use_gpu : Bool) (tb vb : List B) (epochs : ℕ) (s0 : S) (err : TrainErr)
    (htb : tb ≠ []) (hE : 0 < epochs)
    (hfail : ∀ st batch ep l, ops.savePics st batch ep l = .error err) :
    train ops use_gpu tb vb epochs s0 = .error err := by
  obtain ⟨fuel, rfl⟩ : ∃ f, epochs = f + 1 := ⟨epochs - 1, by omega⟩
  obtain ⟨lbT, hlbT⟩ := lastBatchVar_isSome ops use_gpu tb htb none
  have hbody : epochBody ops use_gpu tb vb 0 s0 none = .error err := by
    simp only [epochBody, trainPass_char, hlbT, hfail, exceptBind_ok,
      exceptBind_error, exceptPure, dumpCond, if_pos]
    rfl
  show (do
      let (s', lastB', (tg, td, vg, vd), evs) ← epochBody ops use_gpu tb vb 0 s0 none
      let ((hh1, hh2, hh3, hh4), evs') ←
        trainFrom ops use_gpu tb vb fuel (0 + 1) s' lastB'
      pure ((tg :: hh1, td :: hh2, vg :: hh3, vd :: hh4), evs ++ evs') :
        Except TrainErr ((List α × List α × List α × List α) × List (ℕ × PersistKind))) =
    .error err
  rw [hbody]
  rfl

/-- C8 (counterexample): on a concrete one-epoch run whose image dumper
raises, training does not continue — the run returns the dumper's error and
produces no histories, contradicting log-and-continue semantics. -/
theorem train_dump_failure_aborts_cex :
    train failingPicsOps false [(1 : ℚ)] [(2 : ℚ)] 1 () = .error .ioFailure := by
  rfl

/-- C8 witness: the amended abort theorem applied to the concrete failing
dumper. -/
theorem train_dump_failure_aborts_witness :
    ([(1 : ℚ)] ≠ ([] : List ℚ)) ∧ 0 < 1 ∧
    train failingPicsOps false [(1 : ℚ)] [(2 : ℚ)] 1 () = .error .ioFailure :=
  ⟨by decide, by decide,
    train_dump_failure_aborts failingPicsOps false [(1 : ℚ)] [(2 : ℚ)] 1 () .ioFailure
      (by decide) (by decide) (fun _ _ _ _ => rfl)⟩

/-- C9: `train` constructs two Adam optimizer instances, the generator's from
`lr * 10` and the discriminator's from `lr`; for every learning rate the
generator optimizer's rate is exactly ten times the discriminator's. -/
theorem train_optimizers_lr_ratio (lr : ℝ) :
    (train_optimizers lr).1.learning_rate = 10 * (train_optimizers lr).2.learning_rate := by
  show lr * 10 = 10 * lr
  ring

end Inpaint
